import Mathlib

/-!
# Responsive Image Gallery: the modal viewer's navigation and loading state

A shallow embedding of `src/components/ModalSlider.js`.  The React component
is modelled by explicit state passing: one `Session` record holds the three
`useState` cells (`current`, `imgLoading`, `imgError`), the two touch refs, and
the part of the environment the event handlers act on (which `Image` object
still carries load handlers, which neighbours were preloaded, how often the
`onClose` prop was invoked).  Every event handler of the component is a function
`Session → Session` giving the state after the handler, the re-render it
triggers and the effects of that re-render have run.

Conventions.
* Indices are JavaScript numbers holding integers; they are modelled by `Int`.
  The JavaScript remainder `%` truncates towards zero and is `Int.tmod`.  For
  an empty photo list JavaScript yields `NaN`, which `Int` does not represent:
  every statement below is about non-empty lists.
* Touch coordinates (`clientX`) are finite doubles and may be fractional; they
  are modelled by the rationals, of which every finite double is one, and
  their difference is rounded to binary64 as JavaScript does (`jsSub`).
* A state setter called with a value equal to the stored one makes React bail
  out: nothing is re-rendered and no effect runs again.
-/

namespace ModalSlider

/-- One photo record as delivered by the listing endpoint. -/
structure Photo where
  id : String
  author : Option String
  download_url : String
  deriving DecidableEq, Repr

/-- Outcome of loading one image: the `load` event or the `error` event. -/
inductive LoadResult where
  | success
  | failure
  deriving DecidableEq, Repr

/-- The three load states the specification names. -/
inductive LoadState where
  | loading
  | loaded
  | failed
  deriving DecidableEq, Repr

/-- The two image objects of the component that carry load handlers:
the `Image` created by the load effect (lines 20-26) and the rendered
`<img>` element (lines 134-146). -/
inductive Loader where
  | effectImage
  | imgElement
  deriving DecidableEq, Repr

/-- State of one mounted viewer. -/
structure Session where
  /-- The `photos` prop. -/
  photos : List Photo
  /-- The `current` state cell. -/
  current : Int
  /-- The `imgLoading` state cell. -/
  imgLoading : Bool
  /-- The `imgError` state cell. -/
  imgError : Bool
  /-- The `touchStartX` ref. -/
  touchStartX : ℚ
  /-- The `touchEndX` ref. -/
  touchEndX : ℚ
  /-- Index loaded by the effect `Image` whose `onload`/`onerror` are still
  attached; the cleanup of the load effect sets them to `null`. -/
  attached : Option Int
  /-- Indices given to the two neighbour images `p1`, `p2` by the latest run of
  the load effect. -/
  preloads : List Int
  /-- Number of times the `onClose` prop has been invoked. -/
  closeCalls : Nat
  deriving DecidableEq, Repr

/-- JavaScript `a % b` on integers (sign of the dividend). -/
def jsRem (a b : Int) : Int := Int.tmod a b

/-- The `photos.length` expression. -/
def len (s : Session) : Int := (s.photos.length : Int)

/-- Body of the load effect `useEffect(..., [current, photos])`, lines 16-40,
run after its own cleanup: both flags are reset, a fresh `Image` for the
current index gets the handlers (the previous one lost them in the cleanup),
and the two neighbours are preloaded without handlers. -/
def loadEffect (s : Session) : Session :=
  { s with
    imgLoading := true
    imgError := false
    attached := some s.current
    preloads := [jsRem (s.current + 1) (len s), jsRem (s.current - 1 + len s) (len s)] }

/-- The setter `setCurrent(updater)`: an unchanged value makes React bail out,
a changed value re-renders and re-runs the load effect, whose dependency
`current` changed. -/
def setCurrent (f : Int → Int) (s : Session) : Session :=
  if f s.current = s.current then s
  else loadEffect { s with current := f s.current }

/-- Mounting the component, `ModalSlider({ photos, index, onClose })`: the
initial values of lines 5-10 followed by the mount effects.  The sync effect
of lines 12-14 stores the value `current` already has; the load effect runs
once.  This is the specification's `open(photos, startIndex)`. -/
def openViewer (photos : List Photo) (index : Option Int) : Session :=
  loadEffect
    { photos := photos
      current := index.getD 0
      imgLoading := true
      imgError := false
      touchStartX := 0
      touchEndX := 0
      attached := none
      preloads := []
      closeCalls := 0 }

/-- Line 52: `next = () => setCurrent((prev) => (prev + 1) % photos.length)`. -/
def next (s : Session) : Session :=
  setCurrent (fun prev => jsRem (prev + 1) (len s)) s

/-- Lines 53-54:
`prev = () => setCurrent((prev) => (prev - 1 + photos.length) % photos.length)`. -/
def prev (s : Session) : Session :=
  setCurrent (fun prev => jsRem (prev - 1 + len s) (len s)) s

/-- The `onClose` prop, owned by the parent: the session only records the call. -/
def onClose (s : Session) : Session :=
  { s with closeCalls := s.closeCalls + 1 }

/-- Lines 43-47, the `keydown` listener: three independent `if` statements. -/
def onKey (key : String) (s : Session) : Session :=
  let s1 := if key = "Escape" then onClose s else s
  let s2 := if key = "ArrowRight" then next s1 else s1
  if key = "ArrowLeft" then prev s2 else s2

/-- Rounding a rational to the nearest integer, a tie going to the even one. -/
def roundHalfEven (y : ℚ) : ℤ :=
  if y - ⌊y⌋ < 1 / 2 then ⌊y⌋
  else if 1 / 2 < y - ⌊y⌋ then ⌊y⌋ + 1
  else if ⌊y⌋ % 2 = 0 then ⌊y⌋ else ⌊y⌋ + 1

/-- Exponent of the spacing of the binary64 numbers around `x ≥ 0`: 53
significant bits above the binade `2 ^ Int.log 2 x`, and never finer than the
subnormal spacing `2 ^ (-1074)`. -/
def quantumExp (x : ℚ) : ℤ :=
  max (Int.log 2 x - 52) (-1074)

/-- The binary64 number nearest to `x ≥ 0`, a tie going to the even
significand. -/
def roundMagnitude (x : ℚ) : ℚ :=
  (roundHalfEven (x / 2 ^ quantumExp x) : ℚ) * 2 ^ quantumExp x

/-- IEEE 754 binary64 rounding (round to nearest, ties to even) of an exact
result.  A value beyond the binary64 range stands for the infinity of its
sign, with which it agrees in every comparison made below. -/
def toDouble (x : ℚ) : ℚ :=
  if 0 ≤ x then roundMagnitude x else -roundMagnitude (-x)

/-- JavaScript `a - b` on numbers: the exact difference, rounded. -/
def jsSub (a b : ℚ) : ℚ :=
  toDouble (a - b)

/-- Lines 66-79. -/
def handleSwipe (s : Session) : Session :=
  let diff := jsSub s.touchStartX s.touchEndX
  let minSwipeDistance : ℚ := 50
  if |diff| > minSwipeDistance then
    if diff > 0 then next s else prev s
  else s

/-- Lines 57-59; `x` is `e.changedTouches[0].clientX`, a finite double. -/
def handleTouchStart (x : ℚ) (s : Session) : Session :=
  { s with touchStartX := x }

/-- Lines 61-64; `x` is `e.changedTouches[0].clientX`, a finite double. -/
def handleTouchEnd (x : ℚ) (s : Session) : Session :=
  handleSwipe { s with touchEndX := x }

/-- One touch interaction: touch-start at `startX`, touch-end at `endX`. -/
def swipe (startX endX : ℚ) (s : Session) : Session :=
  handleTouchEnd endX (handleTouchStart startX s)

/-- Click handler of the Retry button, lines 120-126, up to the timer it
starts. -/
def retry (s : Session) : Session :=
  { s with imgLoading := true, imgError := false }

/-- The timer callback of line 125, `setCurrent((c) => c)`. -/
def retryTimer (s : Session) : Session :=
  setCurrent (fun c => c) s

/-- The load handlers, identical on both image objects: `onload` is
`setImgLoading(false)`; `onerror` is `setImgLoading(false); setImgError(true)`. -/
def fire (r : LoadResult) (s : Session) : Session :=
  match r with
  | .success => { s with imgLoading := false }
  | .failure => { s with imgLoading := false, imgError := true }

/-- Whether a result for photo `forIndex` coming from image object `via`
reaches a handler.  The effect `Image` has handlers only while it is the one
of the latest effect run: the cleanup of lines 36-39 removes them from the
earlier ones.  The `<img>` element exists only under `!imgError` (line 134);
its `onLoad` and `onError` (lines 140-144) test no index, so while it exists
they run on every load or error event it reports, whichever photo the
request was for. -/
def delivered (via : Loader) (forIndex : Int) (s : Session) : Bool :=
  match via with
  | .effectImage => decide (s.attached = some forIndex)
  | .imgElement => !s.imgError

/-- The specification's `onImageResult(forIndex, result)`: a load result for
photo `forIndex` arrives from image object `via`. -/
def onImageResult (via : Loader) (forIndex : Int) (r : LoadResult) (s : Session) : Session :=
  if delivered via forIndex s then fire r s else s

/-- The load state the two flags denote: spinner only, image only, error box
only.  Both flags set denotes none of the three. -/
def loadState (s : Session) : Option LoadState :=
  match s.imgLoading, s.imgError with
  | true, false => some .loading
  | false, false => some .loaded
  | false, true => some .failed
  | true, true => none

/-- The user and loader events a mounted viewer reacts to. -/
inductive Event where
  | next
  | previous
  | key (k : String)
  | touchStart (x : ℚ)
  | touchEnd (x : ℚ)
  | retry
  | retryTimer
  | imageResult (via : Loader) (forIndex : Int) (r : LoadResult)
  deriving DecidableEq, Repr

/-- Whether the event can occur: the Retry button is rendered only under
`imgError` (line 116). -/
def enabled (e : Event) (s : Session) : Bool :=
  match e with
  | .retry => s.imgError
  | _ => true

/-- One event handled to completion. -/
def step (e : Event) (s : Session) : Session :=
  match e with
  | .next => next s
  | .previous => prev s
  | .key k => onKey k s
  | .touchStart x => handleTouchStart x s
  | .touchEnd x => handleTouchEnd x s
  | .retry => retry s
  | .retryTimer => retryTimer s
  | .imageResult via forIndex r => onImageResult via forIndex r s

/-- Handling a sequence of events from left to right, skipping those that
cannot occur. -/
def run (es : List Event) (s : Session) : Session :=
  es.foldl (fun acc e => if enabled e acc then step e acc else acc) s

/-- Sessions reachable from `open(photos, startIndex)` under the
preconditions of `open`. -/
def Reachable (photos : List Photo) (s : Session) : Prop :=
  ∃ (startIndex : Int) (es : List Event),
    photos ≠ [] ∧ 0 ≤ startIndex ∧ startIndex < photos.length ∧
    s = run es (openViewer photos (some startIndex))

/-- The navigation operations of the specification. -/
inductive Nav where
  | next
  | previous
  deriving DecidableEq, Repr

/-- One navigation operation. -/
def navigate (n : Nav) (s : Session) : Session :=
  match n with
  | .next => next s
  | .previous => prev s

/-- A finite sequence of navigation operations, left to right. -/
def navigateAll (ns : List Nav) (s : Session) : Session :=
  ns.foldl (fun acc n => navigate n acc) s

/-- Three sample photos. -/
def photoA : Photo := { id := "0", author := some "A", download_url := "https://picsum.photos/id/0" }

/-- Second sample photo. -/
def photoB : Photo := { id := "1", author := some "B", download_url := "https://picsum.photos/id/1" }

/-- Third sample photo. -/
def photoC : Photo := { id := "2", author := none, download_url := "https://picsum.photos/id/2" }

/-- The session invariant: the photo list is the one the viewer was opened
with, `current` indexes it, and the attached effect `Image` is the one of the
current photo. -/
structure Valid (photos : List Photo) (s : Session) : Prop where
  photos_eq : s.photos = photos
  nonneg : 0 ≤ s.current
  lt : s.current < len s
  attached_eq : s.attached = some s.current

/-- An `Image` object created by the load effect: the photo index whose
`download_url` is its `src`, and whether `onload`/`onerror` are assigned. -/
structure ImageObject where
  index : Int
  hasHandlers : Bool
  deriving DecidableEq, Repr

/-- The neighbour images `p1` and `p2` of lines 31-34, made by the latest run
of the load effect: each gets a `src` and nothing else. -/
def neighbourImages (s : Session) : List ImageObject :=
  s.preloads.map (fun i => { index := i, hasHandlers := false })

/-- The `load` or `error` event of an effect image: its handler runs if it has
one. -/
def imageEvent (o : ImageObject) (r : LoadResult) (s : Session) : Session :=
  if o.hasHandlers then fire r s else s

/-- The preloads recorded in the session are the two neighbours of `current`,
as lines 29-30 compute them. -/
def PreloadsCurrent (s : Session) : Prop :=
  s.preloads = [jsRem (s.current + 1) (len s), jsRem (s.current - 1 + len s) (len s)]

/-- The two load flags are not both set. -/
def FlagsExclusive (s : Session) : Prop :=
  ¬ (s.imgLoading = true ∧ s.imgError = true)

end ModalSlider

/-! # The grid: `src/components/Gallery.js`

The five `useState` cells of `Gallery` and its handlers.  `displayCount` and
the thumbnail indices are counts and hold natural numbers only (15, then
`Math.min(prev + 10, photos.length)`); on those `slice(0, n)` is `List.take`.
A fetch completes only while one is running, that is while `loading` is set
(lines 13 and 25). -/

namespace Gallery

/-- The state cells of lines 6-10. -/
structure State where
  photos : List ModalSlider.Photo
  loading : Bool
  error : Option String
  selectedIndex : Option Nat
  displayCount : Nat
  deriving DecidableEq, Repr

/-- Lines 13-14, `fetchPhotos` up to its `await`. -/
def fetchPhotos (g : State) : State :=
  { g with loading := true, error := none }

/-- First render (lines 6-10) and the mount effect of lines 29-31. -/
def mount : State :=
  fetchPhotos { photos := [], loading := true, error := none, selectedIndex := none,
                displayCount := 15 }

/-- Lines 19-20 and 25: the fetch delivered `data`. -/
def fetchResolved (data : List ModalSlider.Photo) (g : State) : State :=
  { g with photos := data, loading := false }

/-- Lines 21-25: the fetch failed. -/
def fetchRejected (g : State) : State :=
  { g with
    error := some "Failed to fetch images. Please check your connection and try again."
    loading := false }

/-- Lines 33-35: `setDisplayCount((prev) => Math.min(prev + 10, photos.length))`. -/
def loadMore (g : State) : State :=
  { g with displayCount := min (g.displayCount + 10) g.photos.length }

/-- Line 37: `photos.slice(0, displayCount)`. -/
def displayedPhotos (g : State) : List ModalSlider.Photo :=
  g.photos.take g.displayCount

/-- Neither early return of lines 39-56 is taken: the grid is rendered. -/
def rendersGrid (g : State) : Bool :=
  !g.loading && g.error.isNone

/-- Lines 69-93: one thumbnail per displayed photo, with its `map` index. -/
def thumbnails (g : State) : List (Nat × ModalSlider.Photo) :=
  if rendersGrid g then (displayedPhotos g).enum else []

/-- Line 97: the load-more button is rendered. -/
def loadMoreAvailable (g : State) : Bool :=
  rendersGrid g && decide (g.displayCount < g.photos.length)

/-- Lines 73 and 76-80: click, Enter or space on the thumbnail with this index. -/
def selectThumbnail (index : Nat) (g : State) : State :=
  { g with selectedIndex := some index }

/-- Line 109: the `onClose` given to the viewer. -/
def closeModal (g : State) : State :=
  { g with selectedIndex := none }

/-- Lines 105-111: the `photos` and `index` props given to `ModalSlider`, if it
is rendered. -/
def modalProps (g : State) : Option (List ModalSlider.Photo × Int) :=
  if rendersGrid g then g.selectedIndex.map (fun i => (g.photos, (i : Int))) else none

/-- What the page reacts to. -/
inductive Event where
  | fetchResolved (data : List ModalSlider.Photo)
  | fetchRejected
  | retryFetch
  | loadMore
  | selectThumbnail (index : Nat)
  | closeModal
  deriving DecidableEq, Repr

/-- Whether the event can occur: a fetch completes only while one is running,
and a control can be used only while it is rendered. -/
def enabled (e : Event) (g : State) : Bool :=
  match e with
  | .fetchResolved _ => g.loading
  | .fetchRejected => g.loading
  | .retryFetch => !g.loading && g.error.isSome
  | .loadMore => loadMoreAvailable g
  | .selectThumbnail index => decide (index < (thumbnails g).length)
  | .closeModal => (modalProps g).isSome

/-- One event handled to completion. -/
def step (e : Event) (g : State) : State :=
  match e with
  | .fetchResolved data => fetchResolved data g
  | .fetchRejected => fetchRejected g
  | .retryFetch => fetchPhotos g
  | .loadMore => loadMore g
  | .selectThumbnail index => selectThumbnail index g
  | .closeModal => closeModal g

/-- Handling a sequence of events from left to right, skipping those that
cannot occur. -/
def run (es : List Event) (g : State) : State :=
  es.foldl (fun acc e => if enabled e acc then step e acc else acc) g

/-- Page states reachable from the mount. -/
def Reachable (g : State) : Prop :=
  ∃ es : List Event, g = run es mount

/-- While a photo is selected the grid is rendered and the selected index is
one of a displayed photo. -/
def SelectionShown (g : State) : Prop :=
  ∀ i : Nat, g.selectedIndex = some i →
    i < (displayedPhotos g).length ∧ g.loading = false ∧ g.error = none

end Gallery

namespace ModalSlider

/-! ## Index arithmetic -/

theorem jsRem_succ (c n : Int) (h0 : 0 ≤ c) (h1 : c < n) :
    jsRem (c + 1) n = if c + 1 = n then 0 else c + 1 := by
  unfold jsRem
  rw [Int.tmod_eq_emod (by omega) (by omega)]
  split
  · next h => rw [h, Int.emod_self]
  · next h => exact Int.emod_eq_of_lt (by omega) (by omega)

theorem jsRem_pred (c n : Int) (h0 : 0 ≤ c) (h1 : c < n) :
    jsRem (c - 1 + n) n = if c = 0 then n - 1 else c - 1 := by
  unfold jsRem
  rw [Int.tmod_eq_emod (by omega) (by omega)]
  split
  · next h =>
    have hz : c - 1 + n = n - 1 := by omega
    rw [hz]
    exact Int.emod_eq_of_lt (by omega) (by omega)
  · next h =>
    have hadd : (c - 1 + n) % n = (c - 1) % n := Int.add_emod_self
    rw [hadd]
    exact Int.emod_eq_of_lt (by omega) (by omega)

theorem setCurrent_current (f : Int → Int) (s : Session) :
    (setCurrent f s).current = f s.current := by
  unfold setCurrent
  split
  · next h => exact h.symm
  · rfl

theorem setCurrent_photos (f : Int → Int) (s : Session) :
    (setCurrent f s).photos = s.photos := by
  unfold setCurrent
  split <;> rfl

theorem next_current (s : Session) : (next s).current = jsRem (s.current + 1) (len s) :=
  setCurrent_current _ s

theorem prev_current (s : Session) :
    (prev s).current = jsRem (s.current - 1 + len s) (len s) :=
  setCurrent_current _ s

theorem next_photos (s : Session) : (next s).photos = s.photos := setCurrent_photos _ s

theorem prev_photos (s : Session) : (prev s).photos = s.photos := setCurrent_photos _ s

theorem next_len (s : Session) : len (next s) = len s := by
  unfold len; rw [next_photos]

theorem prev_len (s : Session) : len (prev s) = len s := by
  unfold len; rw [prev_photos]

theorem next_current_valid (s : Session) (h0 : 0 ≤ s.current) (h1 : s.current < len s) :
    (next s).current = if s.current + 1 = len s then 0 else s.current + 1 := by
  rw [next_current, jsRem_succ _ _ h0 h1]

theorem prev_current_valid (s : Session) (h0 : 0 ≤ s.current) (h1 : s.current < len s) :
    (prev s).current = if s.current = 0 then len s - 1 else s.current - 1 := by
  rw [prev_current, jsRem_pred _ _ h0 h1]

/-! ## The invariant is kept by every handler -/

theorem valid_openViewer (photos : List Photo) (startIndex : Int)
    (h0 : 0 ≤ startIndex) (h1 : startIndex < photos.length) :
    Valid photos (openViewer photos (some startIndex)) :=
  ⟨rfl, h0, h1, rfl⟩

theorem valid_setCurrent (photos : List Photo) (f : Int → Int) (s : Session)
    (hv : Valid photos s) (h0 : 0 ≤ f s.current) (h1 : f s.current < len s) :
    Valid photos (setCurrent f s) := by
  unfold setCurrent
  split
  · exact hv
  · exact ⟨hv.photos_eq, h0, h1, rfl⟩

theorem valid_next (photos : List Photo) (s : Session) (hv : Valid photos s) :
    Valid photos (next s) := by
  have hc := jsRem_succ _ _ hv.nonneg hv.lt
  have hlt := hv.lt
  have h0 := hv.nonneg
  apply valid_setCurrent photos _ s hv
  · show 0 ≤ jsRem (s.current + 1) (len s)
    rw [hc]; split <;> omega
  · show jsRem (s.current + 1) (len s) < len s
    rw [hc]; split <;> omega

theorem valid_prev (photos : List Photo) (s : Session) (hv : Valid photos s) :
    Valid photos (prev s) := by
  have hc := jsRem_pred _ _ hv.nonneg hv.lt
  have hlt := hv.lt
  have h0 := hv.nonneg
  apply valid_setCurrent photos _ s hv
  · show 0 ≤ jsRem (s.current - 1 + len s) (len s)
    rw [hc]; split <;> omega
  · show jsRem (s.current - 1 + len s) (len s) < len s
    rw [hc]; split <;> omega

theorem valid_onClose (photos : List Photo) (s : Session) (hv : Valid photos s) :
    Valid photos (onClose s) :=
  ⟨hv.photos_eq, hv.nonneg, hv.lt, hv.attached_eq⟩

theorem valid_onKey (photos : List Photo) (key : String) (s : Session)
    (hv : Valid photos s) : Valid photos (onKey key s) := by
  unfold onKey
  have h1 : Valid photos (if key = "Escape" then onClose s else s) := by
    split
    · exact valid_onClose photos s hv
    · exact hv
  have h2 : Valid photos
      (if key = "ArrowRight" then next (if key = "Escape" then onClose s else s)
        else (if key = "Escape" then onClose s else s)) := by
    split
    · exact valid_next photos _ h1
    · exact h1
  show Valid photos (if key = "ArrowLeft" then prev _ else _)
  split
  · exact valid_prev photos _ h2
  · exact h2

theorem valid_handleSwipe (photos : List Photo) (s : Session) (hv : Valid photos s) :
    Valid photos (handleSwipe s) := by
  unfold handleSwipe
  simp only
  split
  · split
    · exact valid_next photos s hv
    · exact valid_prev photos s hv
  · exact hv

theorem valid_fire (photos : List Photo) (r : LoadResult) (s : Session)
    (hv : Valid photos s) : Valid photos (fire r s) := by
  cases r <;> exact ⟨hv.photos_eq, hv.nonneg, hv.lt, hv.attached_eq⟩

theorem valid_step (photos : List Photo) (e : Event) (s : Session)
    (hv : Valid photos s) : Valid photos (step e s) := by
  cases e with
  | next => exact valid_next photos s hv
  | previous => exact valid_prev photos s hv
  | key k => exact valid_onKey photos k s hv
  | touchStart x => exact ⟨hv.photos_eq, hv.nonneg, hv.lt, hv.attached_eq⟩
  | touchEnd x =>
    exact valid_handleSwipe photos _ ⟨hv.photos_eq, hv.nonneg, hv.lt, hv.attached_eq⟩
  | retry => exact ⟨hv.photos_eq, hv.nonneg, hv.lt, hv.attached_eq⟩
  | retryTimer => exact valid_setCurrent photos (fun c => c) s hv hv.nonneg hv.lt
  | imageResult via forIndex r =>
    show Valid photos (onImageResult via forIndex r s)
    unfold onImageResult
    split
    · exact valid_fire photos r s hv
    · exact hv

theorem valid_run (photos : List Photo) (es : List Event) (s : Session)
    (hv : Valid photos s) : Valid photos (run es s) := by
  induction es generalizing s with
  | nil => exact hv
  | cons e es ih =>
    show Valid photos (run es (if enabled e s then step e s else s))
    apply ih
    split
    · exact valid_step photos e s hv
    · exact hv

theorem valid_of_reachable (photos : List Photo) (s : Session)
    (h : Reachable photos s) : Valid photos s := by
  obtain ⟨startIndex, es, _, h0, h1, rfl⟩ := h
  exact valid_run photos es _ (valid_openViewer photos startIndex h0 h1)

theorem jsRem_eq_emod (a n : Int) (ha : 0 ≤ a) (hn : 0 ≤ n) : jsRem a n = a % n :=
  Int.tmod_eq_emod ha hn

theorem onImageResult_effectImage_stale (forIndex : Int) (r : LoadResult) (s : Session)
    (hatt : s.attached = some s.current) (hstale : forIndex ≠ s.current) :
    onImageResult Loader.effectImage forIndex r s = s := by
  have hnot : delivered Loader.effectImage forIndex s = false := by
    simp only [delivered, hatt, decide_eq_false_iff_not]
    intro h
    exact hstale (Option.some.inj h).symm
  simp [onImageResult, hnot]

theorem iterate_next_valid (s : Session) (h0 : 0 ≤ s.current) (h1 : s.current < len s)
    (k : Nat) :
    (next^[k] s).current = (s.current + k) % len s ∧ len (next^[k] s) = len s := by
  induction k with
  | zero =>
    refine ⟨?_, rfl⟩
    simp only [Function.iterate_zero, id_eq, Nat.cast_zero, Int.add_zero]
    exact (Int.emod_eq_of_lt h0 h1).symm
  | succ k ih =>
    obtain ⟨hc, hl⟩ := ih
    rw [Function.iterate_succ_apply']
    have hpos : 0 < len s := by omega
    have hb0 : 0 ≤ (next^[k] s).current := by
      rw [hc]; exact Int.emod_nonneg _ (by omega)
    have hb1 : (next^[k] s).current < len s := by
      rw [hc]; exact Int.emod_lt_of_pos _ hpos
    refine ⟨?_, by rw [next_len, hl]⟩
    rw [next_current, hl, jsRem_eq_emod _ _ (by omega) (by omega), hc, Int.emod_add_emod]
    congr 1
    push_cast
    omega

/-! ## Binary64 rounding of the swipe distance -/

theorem roundHalfEven_le (y : ℚ) (N : ℤ) (h : y ≤ N) : roundHalfEven y ≤ N := by
  have hf : (⌊y⌋ : ℚ) ≤ y := Int.floor_le y
  have hfN : ⌊y⌋ ≤ N := by exact_mod_cast hf.trans h
  have hup : 0 < y - ⌊y⌋ → ⌊y⌋ + 1 ≤ N := by
    intro hpos
    have hlt : (⌊y⌋ : ℚ) < N := by linarith
    have hlt2 : ⌊y⌋ < N := by exact_mod_cast hlt
    omega
  unfold roundHalfEven
  split
  · exact hfN
  · next h1 =>
    split
    · next h2 => exact hup (by linarith)
    · split
      · exact hfN
      · exact hup (by linarith)

theorem le_roundHalfEven (y : ℚ) (N : ℤ) (h : (N : ℚ) ≤ y) : N ≤ roundHalfEven y := by
  have hfN : N ≤ ⌊y⌋ := Int.le_floor.mpr h
  unfold roundHalfEven
  split
  · exact hfN
  · split
    · omega
    · split
      · exact hfN
      · omega

theorem two_zpow_pos (q : ℤ) : (0 : ℚ) < 2 ^ q := zpow_pos (by norm_num) q

theorem roundMagnitude_nonneg (x : ℚ) (hx : 0 ≤ x) : 0 ≤ roundMagnitude x := by
  unfold roundMagnitude
  have hy : ((0 : ℤ) : ℚ) ≤ x / 2 ^ quantumExp x := by
    simpa using div_nonneg hx (two_zpow_pos _).le
  have hr : (0 : ℤ) ≤ roundHalfEven (x / 2 ^ quantumExp x) := le_roundHalfEven _ 0 hy
  have hr2 : (0 : ℚ) ≤ (roundHalfEven (x / 2 ^ quantumExp x) : ℚ) := by exact_mod_cast hr
  exact mul_nonneg hr2 (two_zpow_pos _).le

theorem roundMagnitude_zero : roundMagnitude 0 = 0 := by
  unfold roundMagnitude
  have h1 : roundHalfEven (0 / 2 ^ quantumExp 0) ≤ 0 := roundHalfEven_le _ 0 (by simp)
  have h2 : 0 ≤ roundHalfEven (0 / 2 ^ quantumExp 0) := le_roundHalfEven _ 0 (by simp)
  have h3 : roundHalfEven (0 / 2 ^ quantumExp 0) = 0 := le_antisymm h1 h2
  rw [h3]; simp

theorem toDouble_nonneg (x : ℚ) (hx : 0 ≤ x) : 0 ≤ toDouble x := by
  unfold toDouble
  rw [if_pos hx]
  exact roundMagnitude_nonneg x hx

theorem toDouble_nonpos (x : ℚ) (hx : x ≤ 0) : toDouble x ≤ 0 := by
  unfold toDouble
  split
  · next h0 =>
    have hz : x = 0 := le_antisymm hx h0
    rw [hz, roundMagnitude_zero]
  · have := roundMagnitude_nonneg (-x) (by linarith)
    linarith

theorem abs_toDouble (x : ℚ) : |toDouble x| = roundMagnitude |x| := by
  unfold toDouble
  split
  · next h0 =>
    rw [abs_of_nonneg h0, abs_of_nonneg (roundMagnitude_nonneg x h0)]
  · next h0 =>
    have hneg : x < 0 := lt_of_not_le h0
    rw [abs_of_neg hneg, abs_neg, abs_of_nonneg (roundMagnitude_nonneg (-x) (by linarith))]

theorem quantumExp_nonpos (x : ℚ) (hx : x ≤ 50) : quantumExp x ≤ 0 := by
  unfold quantumExp
  have hlog : Int.log 2 x < 6 := by
    rcases le_or_lt x 0 with h0 | h0
    · rw [Int.log_of_right_le_zero 2 h0]; norm_num
    · apply (Int.lt_zpow_iff_log_lt (by norm_num) h0).mp
      norm_num
      linarith
  exact max_le (by omega) (by norm_num)

theorem roundMagnitude_le_fifty (x : ℚ) (hx : x ≤ 50) : roundMagnitude x ≤ 50 := by
  have hq := quantumExp_nonpos x hx
  unfold roundMagnitude
  generalize quantumExp x = q at hq ⊢
  obtain ⟨k, hk⟩ : ∃ k : ℕ, q = -(k : ℤ) := ⟨(-q).toNat, by omega⟩
  subst hk
  have hpow : (2 : ℚ) ^ (-(k : ℤ)) = ((2 : ℚ) ^ k)⁻¹ := by
    rw [zpow_neg, zpow_natCast]
  have hpos : (0 : ℚ) < 2 ^ k := pow_pos (by norm_num) k
  rw [hpow]
  have hy : x / ((2 : ℚ) ^ k)⁻¹ ≤ ((50 * 2 ^ k : ℤ) : ℚ) := by
    rw [div_inv_eq_mul]
    push_cast
    exact mul_le_mul_of_nonneg_right hx hpos.le
  have hr := roundHalfEven_le _ _ hy
  have hr2 : (roundHalfEven (x / ((2 : ℚ) ^ k)⁻¹) : ℚ) ≤ ((50 * 2 ^ k : ℤ) : ℚ) := by
    exact_mod_cast hr
  calc (roundHalfEven (x / ((2 : ℚ) ^ k)⁻¹) : ℚ) * ((2 : ℚ) ^ k)⁻¹
      ≤ ((50 * 2 ^ k : ℤ) : ℚ) * ((2 : ℚ) ^ k)⁻¹ :=
        mul_le_mul_of_nonneg_right hr2 (inv_pos.mpr hpos).le
    _ = 50 := by
        push_cast
        field_simp

theorem fifty_lt_roundMagnitude (x : ℚ) (hx : 50 + 1 / 2 ^ 47 ≤ x) :
    50 < roundMagnitude x := by
  have hxpos : 0 < x := by
    have : (0 : ℚ) < 50 + 1 / 2 ^ 47 := by positivity
    linarith
  have he5 : 5 ≤ Int.log 2 x := by
    apply (Int.zpow_le_iff_le_log (by norm_num) hxpos).mp
    norm_num
    have : (0 : ℚ) < 1 / 2 ^ 47 := by positivity
    linarith
  have hq : quantumExp x = Int.log 2 x - 52 := by
    unfold quantumExp
    exact max_eq_left (by omega)
  unfold roundMagnitude
  rw [hq]
  rcases eq_or_lt_of_le he5 with he | he
  · rw [← he]
    have h47 : (2 : ℚ) ^ ((5 : ℤ) - 52) = ((2 : ℚ) ^ 47)⁻¹ := by
      rw [show (5 : ℤ) - 52 = -((47 : ℕ) : ℤ) by norm_num, zpow_neg, zpow_natCast]
    rw [h47]
    have hpos : (0 : ℚ) < 2 ^ 47 := by positivity
    have hy : ((50 * 2 ^ 47 + 1 : ℤ) : ℚ) ≤ x / ((2 : ℚ) ^ 47)⁻¹ := by
      rw [div_inv_eq_mul]
      push_cast
      have := mul_le_mul_of_nonneg_right hx hpos.le
      have h2 : (50 + 1 / 2 ^ 47 : ℚ) * 2 ^ 47 = 50 * 2 ^ 47 + 1 := by
        field_simp
      linarith
    have hr := le_roundHalfEven _ _ hy
    have hr2 : ((50 * 2 ^ 47 + 1 : ℤ) : ℚ) ≤ (roundHalfEven (x / ((2 : ℚ) ^ 47)⁻¹) : ℚ) := by
      exact_mod_cast hr
    have hm := mul_le_mul_of_nonneg_right hr2 (inv_pos.mpr hpos).le
    have h3 : ((50 * 2 ^ 47 + 1 : ℤ) : ℚ) * ((2 : ℚ) ^ 47)⁻¹ = 50 + 1 / 2 ^ 47 := by
      norm_num
    have h4 : (0 : ℚ) < 1 / 2 ^ 47 := by positivity
    linarith
  · have he6 : 6 ≤ Int.log 2 x := he
    have hle : ((2 : ℕ) : ℚ) ^ Int.log 2 x ≤ x := Int.zpow_log_le_self (by norm_num) hxpos
    have hle2 : (2 : ℚ) ^ Int.log 2 x ≤ x := by exact_mod_cast hle
    have hqpos : (0 : ℚ) < 2 ^ (Int.log 2 x - 52) := two_zpow_pos _
    have hsplit : (2 : ℚ) ^ Int.log 2 x = 2 ^ (52 : ℕ) * 2 ^ (Int.log 2 x - 52) := by
      rw [← zpow_natCast, ← zpow_add₀ (by norm_num : (2 : ℚ) ≠ 0)]
      congr 1
      omega
    have hcast : ((2 ^ 52 : ℤ) : ℚ) = 2 ^ (52 : ℕ) := by norm_num
    have hy : ((2 ^ 52 : ℤ) : ℚ) ≤ x / 2 ^ (Int.log 2 x - 52) := by
      rw [le_div_iff₀ hqpos, hcast, ← hsplit]
      exact hle2
    have hr := le_roundHalfEven _ _ hy
    have hr2 : ((2 ^ 52 : ℤ) : ℚ) ≤ (roundHalfEven (x / 2 ^ (Int.log 2 x - 52)) : ℚ) := by
      exact_mod_cast hr
    have hm := mul_le_mul_of_nonneg_right hr2 hqpos.le
    have h64 : (2 : ℚ) ^ (6 : ℤ) ≤ 2 ^ Int.log 2 x := zpow_le_zpow_right₀ (by norm_num) he6
    have h64b : (2 : ℚ) ^ (6 : ℤ) = 64 := by norm_num
    rw [hcast, ← hsplit] at hm
    linarith

theorem roundHalfEven_le_of_lt_half (y : ℚ) (N : ℤ) (h : y < N + 1 / 2) :
    roundHalfEven y ≤ N := by
  have hf : (⌊y⌋ : ℚ) ≤ y := Int.floor_le y
  have hfN : ⌊y⌋ ≤ N := by
    have hlt : (⌊y⌋ : ℚ) < N + 1 := by linarith
    have hlt2 : ⌊y⌋ < N + 1 := by exact_mod_cast hlt
    omega
  rcases eq_or_lt_of_le hfN with heq | hlt
  · unfold roundHalfEven
    have hr : y - ⌊y⌋ < 1 / 2 := by rw [heq]; linarith
    rw [if_pos hr, heq]
  · have hcases : roundHalfEven y ≤ ⌊y⌋ + 1 := by
      unfold roundHalfEven
      split
      · omega
      · split
        · omega
        · split <;> omega
    omega

theorem roundMagnitude_eq_fifty (x : ℚ) (h1 : 50 ≤ x) (h2 : x < 50 + 1 / 2 ^ 48) :
    roundMagnitude x = 50 := by
  have hxpos : 0 < x := by linarith
  have hsmall : (1 : ℚ) / 2 ^ 48 < 1 := by norm_num
  have he5 : 5 ≤ Int.log 2 x := by
    apply (Int.zpow_le_iff_le_log (by norm_num) hxpos).mp
    norm_num
    linarith
  have he6 : Int.log 2 x < 6 := by
    apply (Int.lt_zpow_iff_log_lt (by norm_num) hxpos).mp
    norm_num
    linarith
  have he : Int.log 2 x = 5 := by omega
  have hq : quantumExp x = -((47 : ℕ) : ℤ) := by
    unfold quantumExp
    rw [he]
    norm_num
  unfold roundMagnitude
  rw [hq, zpow_neg, zpow_natCast, div_inv_eq_mul]
  have hpos : (0 : ℚ) < 2 ^ 47 := by positivity
  have hlo : ((50 * 2 ^ 47 : ℤ) : ℚ) ≤ x * 2 ^ 47 := by
    have hm := mul_le_mul_of_nonneg_right h1 hpos.le
    have hc : ((50 * 2 ^ 47 : ℤ) : ℚ) = 50 * 2 ^ 47 := by norm_num
    rw [hc]
    exact hm
  have hhi : x * 2 ^ 47 < ((50 * 2 ^ 47 : ℤ) : ℚ) + 1 / 2 := by
    have := mul_lt_mul_of_pos_right h2 hpos
    have h3 : (50 + 1 / 2 ^ 48 : ℚ) * 2 ^ 47 = ((50 * 2 ^ 47 : ℤ) : ℚ) + 1 / 2 := by
      norm_num
    linarith
  have hr : roundHalfEven (x * 2 ^ 47) = 50 * 2 ^ 47 :=
    le_antisymm (roundHalfEven_le_of_lt_half _ _ hhi) (le_roundHalfEven _ _ hlo)
  rw [hr]
  norm_num

/-- The doubles nearest to 50.1 and to 0.1: JavaScript computes `50.1 - 0.1`
as exactly 50, and so does `jsSub`. -/
theorem jsSub_rounding_example :
    jsSub (7050948166601933 / 2 ^ 47) (3602879701896397 / 2 ^ 55) = 50 := by
  unfold jsSub toDouble
  rw [if_pos (by norm_num)]
  exact roundMagnitude_eq_fifty _ (by norm_num) (by norm_num)

/-! ## The claims -/

/-- The guarded half of the stale-result property: in every session reachable
from `open`, a load result of the effect `Image` of an index other than
`current` leaves the session as it was, because the cleanup of lines 36-39
took the handlers from that image. -/
theorem effectImage_stale_result_discarded (photos : List Photo) (s : Session)
    (hreach : Reachable photos s) (forIndex : Int) (r : LoadResult)
    (hstale : forIndex ≠ s.current) :
    onImageResult Loader.effectImage forIndex r s = s :=
  onImageResult_effectImage_stale forIndex r s
    (valid_of_reachable photos s hreach).attached_eq hstale

/-- C1, stale-result guard, on the regression test of the specification: two
photos, open at index 0, `next()`; the session is reachable, at index 1 and
`Loading`.  A failure of the effect `Image` of index 0 is discarded, but an
error event the `<img>` element reports for the request of index 0 runs
`onError`, which tests no index: the load state becomes `Failed` although it
must remain that of index 1, `Loading`. -/
theorem stale_imgElement_result_changes_loadState :
    Reachable [photoA, photoB] (next (openViewer [photoA, photoB] (some 0))) ∧
      (next (openViewer [photoA, photoB] (some 0))).current = 1 ∧
      loadState (next (openViewer [photoA, photoB] (some 0))) = some LoadState.loading ∧
      loadState (onImageResult Loader.effectImage 0 LoadResult.failure
        (next (openViewer [photoA, photoB] (some 0)))) = some LoadState.loading ∧
      loadState (onImageResult Loader.imgElement 0 LoadResult.failure
        (next (openViewer [photoA, photoB] (some 0)))) = some LoadState.failed ∧
      loadState (onImageResult Loader.imgElement 0 LoadResult.success
        (next (openViewer [photoA, photoB] (some 0)))) = some LoadState.loaded :=
  ⟨⟨0, [Event.next], by decide, by decide, by decide, rfl⟩,
    by decide, by decide, by decide, by decide, by decide⟩

/-- C2, index validity: on a photo list and a start index within it (the list
is then non-empty), `open` sets `current` to the start index, and after any finite sequence
of `next()` and `previous()` the index still satisfies `0 ≤ current < len`. -/
theorem index_always_valid (photos : List Photo) (startIndex : Int)
    (h0 : 0 ≤ startIndex) (h1 : startIndex < photos.length) :
    (openViewer photos (some startIndex)).current = startIndex ∧
      ∀ ns : List Nav,
        0 ≤ (navigateAll ns (openViewer photos (some startIndex))).current ∧
          (navigateAll ns (openViewer photos (some startIndex))).current < photos.length := by
  refine ⟨rfl, fun ns => ?_⟩
  have key : ∀ (ns : List Nav) (s : Session), Valid photos s → Valid photos (navigateAll ns s) := by
    intro ns
    induction ns with
    | nil => intro s hv; exact hv
    | cons n ns ih =>
      intro s hv
      show Valid photos (navigateAll ns (navigate n s))
      apply ih
      cases n
      · exact valid_next photos s hv
      · exact valid_prev photos s hv
  have hv := key ns _ (valid_openViewer photos startIndex h0 h1)
  have hlt := hv.lt
  have hp := hv.photos_eq
  unfold len at hlt
  rw [hp] at hlt
  exact ⟨hv.nonneg, hlt⟩

/-- Witness of C2 on three photos opened at index 2. -/
theorem index_always_valid_witness :
    (openViewer [photoA, photoB, photoC] (some 2)).current = 2 ∧
      ∀ ns : List Nav,
        0 ≤ (navigateAll ns (openViewer [photoA, photoB, photoC] (some 2))).current ∧
          (navigateAll ns (openViewer [photoA, photoB, photoC] (some 2))).current <
            ([photoA, photoB, photoC].length : Int) :=
  index_always_valid [photoA, photoB, photoC] 2 (by decide) (by decide)

/-- C3, wraparound navigation: on a list of length `len` and a valid index
`i` (the list is then non-empty), `next()` yields `(i + 1) mod len` and `previous()` yields
`(i - 1 + len) mod len`; from `len - 1` `next()` yields 0 and from 0
`previous()` yields `len - 1`.  Both are total functions: neither fails. -/
theorem wraparound_navigation (s : Session)
    (h0 : 0 ≤ s.current) (h1 : s.current < len s) :
    (next s).current = (s.current + 1) % len s ∧
      (prev s).current = (s.current - 1 + len s) % len s ∧
      (s.current = len s - 1 → (next s).current = 0) ∧
      (s.current = 0 → (prev s).current = len s - 1) := by
  refine ⟨?_, ?_, ?_, ?_⟩
  · rw [next_current, jsRem_eq_emod _ _ (by omega) (by omega)]
  · rw [prev_current, jsRem_eq_emod _ _ (by omega) (by omega)]
  · intro h
    rw [next_current_valid s h0 h1, if_pos (by omega)]
  · intro h
    rw [prev_current_valid s h0 h1, if_pos h]

/-- Witness of C3, the scenario `photos = [A, B, C]`, open at 2: `next()`
gives 0, then `previous()` gives 2. -/
theorem wraparound_navigation_witness :
    (openViewer [photoA, photoB, photoC] (some 2)).current = 2 ∧
      (next (openViewer [photoA, photoB, photoC] (some 2))).current = 0 ∧
      (prev (next (openViewer [photoA, photoB, photoC] (some 2)))).current = 2 :=
  ⟨by decide,
    (wraparound_navigation (openViewer [photoA, photoB, photoC] (some 2))
      (by decide) (by decide)).2.2.1 (by decide),
    (wraparound_navigation (next (openViewer [photoA, photoB, photoC] (some 2)))
      (by decide) (by decide)).2.2.2 (by decide)⟩

/-- C4, `previous()` is the exact inverse of `next()`: on a photo list and a
valid index `i` (the list is then non-empty), `previous(next(i)) = i` and `next(previous(i)) = i`. -/
theorem prev_next_inverse (s : Session)
    (h0 : 0 ≤ s.current) (h1 : s.current < len s) :
    (prev (next s)).current = s.current ∧ (next (prev s)).current = s.current := by
  have hn := next_current_valid s h0 h1
  have hp := prev_current_valid s h0 h1
  constructor
  · have hn0 : 0 ≤ (next s).current := by rw [hn]; split <;> omega
    have hn1 : (next s).current < len (next s) := by rw [next_len, hn]; split <;> omega
    rw [prev_current_valid (next s) hn0 hn1, next_len, hn]
    split <;> split <;> omega
  · have hp0 : 0 ≤ (prev s).current := by rw [hp]; split <;> omega
    have hp1 : (prev s).current < len (prev s) := by rw [prev_len, hp]; split <;> omega
    rw [next_current_valid (prev s) hp0 hp1, prev_len, hp]
    split <;> split <;> omega

/-- Witness of C4 on three photos at the wrapping index 2. -/
theorem prev_next_inverse_witness :
    (prev (next (openViewer [photoA, photoB, photoC] (some 2)))).current = 2 ∧
      (next (prev (openViewer [photoA, photoB, photoC] (some 2)))).current = 2 :=
  prev_next_inverse (openViewer [photoA, photoB, photoC] (some 2))
    (by decide) (by decide)

/-- C5, wraparound closure: on a list of length `len` and a valid start index
(the list is then non-empty), `next()` applied exactly `len` times returns `current` to its
original value. -/
theorem next_iterate_len (s : Session)
    (h0 : 0 ≤ s.current) (h1 : s.current < len s) :
    (next^[s.photos.length] s).current = s.current := by
  rw [(iterate_next_valid s h0 h1 s.photos.length).1]
  show (s.current + len s) % len s = s.current
  rw [Int.add_emod_self]
  exact Int.emod_eq_of_lt h0 h1

/-- Witness of C5: three photos opened at index 1, three times `next()`. -/
theorem next_iterate_len_witness :
    (next^[3] (openViewer [photoA, photoB, photoC] (some 1))).current = 1 :=
  next_iterate_len (openViewer [photoA, photoB, photoC] (some 1))
    (by decide) (by decide)

/-- C6, swipe threshold.  The displacement `|startX - endX|` is the one the
code computes: the difference of the two doubles, rounded to binary64
(`jsSub`).  A touch interaction from `startX` to `endX` calls `next()` when
the displacement exceeds 50 and `startX > endX`, calls `previous()` when it
exceeds 50 and `startX < endX`, and otherwise (displacement 50 or less) only
records the two coordinates and leaves `current` as it was; with at least two
photos and a valid index, `current` changes if and only if the displacement
exceeds 50.  Against the exact difference: an exact displacement of at most 50
never navigates, one of at least `50 + 2^(-47)` (the next double after 50)
always does, and for coordinates whose difference is a multiple of `2^(-47)` (all
integer and half-integer pixels, so 49, 50, 50.5 and 51) the code navigates
if and only if the exact displacement exceeds 50. -/
theorem swipe_threshold (s : Session) (startX endX : ℚ) :
    (|jsSub startX endX| > 50 → startX > endX →
        swipe startX endX s = next { s with touchStartX := startX, touchEndX := endX }) ∧
      (|jsSub startX endX| > 50 → startX < endX →
        swipe startX endX s = prev { s with touchStartX := startX, touchEndX := endX }) ∧
      (|jsSub startX endX| ≤ 50 →
        swipe startX endX s = { s with touchStartX := startX, touchEndX := endX } ∧
          (swipe startX endX s).current = s.current) ∧
      (2 ≤ len s → 0 ≤ s.current → s.current < len s →
        ((swipe startX endX s).current ≠ s.current ↔ |jsSub startX endX| > 50)) ∧
      (|startX - endX| ≤ 50 → |jsSub startX endX| ≤ 50) ∧
      (50 + 1 / 2 ^ 47 ≤ |startX - endX| → |jsSub startX endX| > 50) ∧
      ((∃ m : ℤ, startX - endX = (m : ℚ) / 2 ^ 47) →
        (|jsSub startX endX| > 50 ↔ |startX - endX| > 50)) := by
  have hdef : swipe startX endX s =
      if |jsSub startX endX| > 50 then
        if jsSub startX endX > 0 then next { s with touchStartX := startX, touchEndX := endX }
        else prev { s with touchStartX := startX, touchEndX := endX }
      else { s with touchStartX := startX, touchEndX := endX } := rfl
  have habs : |jsSub startX endX| = roundMagnitude |startX - endX| := abs_toDouble _
  have hlow : |startX - endX| ≤ 50 → |jsSub startX endX| ≤ 50 := by
    intro h
    rw [habs]
    exact roundMagnitude_le_fifty _ h
  have hhigh : 50 + 1 / 2 ^ 47 ≤ |startX - endX| → |jsSub startX endX| > 50 := by
    intro h
    rw [habs]
    exact fifty_lt_roundMagnitude _ h
  refine ⟨?_, ?_, ?_, ?_, hlow, hhigh, ?_⟩
  · intro hgt hdir
    have h0 : 0 ≤ jsSub startX endX := toDouble_nonneg _ (by linarith)
    have hpos : jsSub startX endX > 0 := by
      rcases eq_or_lt_of_le h0 with hz | hp
      · rw [← hz] at hgt
        norm_num at hgt
      · exact hp
    rw [hdef, if_pos hgt, if_pos hpos]
  · intro hgt hdir
    have h0 : jsSub startX endX ≤ 0 := toDouble_nonpos _ (by linarith)
    rw [hdef, if_pos hgt, if_neg (not_lt.mpr h0)]
  · intro hle
    rw [hdef, if_neg (not_lt.mpr hle)]
    exact ⟨rfl, rfl⟩
  · intro h2 h0 h1
    have hn := next_current_valid { s with touchStartX := startX, touchEndX := endX } h0 h1
    have hp := prev_current_valid { s with touchStartX := startX, touchEndX := endX } h0 h1
    have hl : len { s with touchStartX := startX, touchEndX := endX } = len s := rfl
    have hc : ({ s with touchStartX := startX, touchEndX := endX } : Session).current
        = s.current := rfl
    rw [hl, hc] at hn hp
    rw [hdef]
    constructor
    · intro hne
      by_contra hnot
      rw [if_neg hnot] at hne
      exact hne rfl
    · intro hgt
      rw [if_pos hgt]
      split
      · rw [hn]; split <;> omega
      · rw [hp]; split <;> omega
  · rintro ⟨m, hm⟩
    constructor
    · intro hgt
      by_contra hnot
      have hle := hlow (not_lt.mp hnot)
      exact absurd hgt (not_lt.mpr hle)
    · intro hgt
      apply hhigh
      have hpos : (0 : ℚ) < 2 ^ 47 := by positivity
      have hmabs : |startX - endX| = ((|m| : ℤ) : ℚ) / 2 ^ 47 := by
        rw [hm, abs_div, abs_of_pos hpos, Int.cast_abs]
      rw [hmabs] at hgt ⊢
      have h1 : (50 : ℚ) * 2 ^ 47 < ((|m| : ℤ) : ℚ) := by
        have := (lt_div_iff₀ hpos).mp hgt
        linarith
      have h2 : (50 * 2 ^ 47 : ℤ) < |m| := by exact_mod_cast h1
      have h3 : (50 * 2 ^ 47 + 1 : ℤ) ≤ |m| := by omega
      have h4 : ((50 * 2 ^ 47 + 1 : ℤ) : ℚ) ≤ ((|m| : ℤ) : ℚ) := by exact_mod_cast h3
      rw [le_div_iff₀ hpos]
      have h5 : (50 + 1 / 2 ^ 47 : ℚ) * 2 ^ 47 = ((50 * 2 ^ 47 + 1 : ℤ) : ℚ) := by
        norm_num
      rw [h5]
      exact h4

/-- Witness of C6, the boundary at 50 pixels on three photos opened at index
0: displacements 49 and 50 do nothing, 51 to the left gives index 1, 51 to the
right gives index 2, and the fractional swipe from 100.5 to 50 (displacement
50.5) gives index 1. -/
theorem swipe_threshold_witness :
    (swipe 100 51 (openViewer [photoA, photoB, photoC] (some 0))).current = 0 ∧
      (swipe 100 50 (openViewer [photoA, photoB, photoC] (some 0))).current = 0 ∧
      (swipe 100 49 (openViewer [photoA, photoB, photoC] (some 0))).current = 1 ∧
      (swipe 49 100 (openViewer [photoA, photoB, photoC] (some 0))).current = 2 ∧
      (swipe (201 / 2) 50 (openViewer [photoA, photoB, photoC] (some 0))).current = 1 :=
  ⟨((swipe_threshold (openViewer [photoA, photoB, photoC] (some 0)) 100 51).2.2.1
      ((swipe_threshold (openViewer [photoA, photoB, photoC] (some 0)) 100 51).2.2.2.2.1
        (by norm_num [abs_le]))).2,
    ((swipe_threshold (openViewer [photoA, photoB, photoC] (some 0)) 100 50).2.2.1
      ((swipe_threshold (openViewer [photoA, photoB, photoC] (some 0)) 100 50).2.2.2.2.1
        (by norm_num [abs_le]))).2,
    ((swipe_threshold (openViewer [photoA, photoB, photoC] (some 0)) 100 49).1
      ((swipe_threshold (openViewer [photoA, photoB, photoC] (some 0)) 100 49).2.2.2.2.2.1
        (by norm_num [le_abs])) (by norm_num)) ▸ (by decide),
    ((swipe_threshold (openViewer [photoA, photoB, photoC] (some 0)) 49 100).2.1
      ((swipe_threshold (openViewer [photoA, photoB, photoC] (some 0)) 49 100).2.2.2.2.2.1
        (by norm_num [le_abs])) (by norm_num)) ▸ (by decide),
    ((swipe_threshold (openViewer [photoA, photoB, photoC] (some 0)) (201 / 2) 50).1
      ((swipe_threshold (openViewer [photoA, photoB, photoC] (some 0))
        (201 / 2) 50).2.2.2.2.2.1 (by norm_num [le_abs])) (by norm_num)) ▸ (by decide)⟩

/-- C7, keyboard dispatch: `ArrowRight` acts exactly as one `next()` (so on a
valid index it advances one index with wrap), `ArrowLeft` exactly as one
`previous()`, `Escape` invokes the close callback once and changes nothing
else, in particular not `current`; every other key leaves the session
unchanged and invokes nothing. -/
theorem keyboard_dispatch (s : Session) :
    onKey "ArrowRight" s = next s ∧
      (0 ≤ s.current → s.current < len s →
        (onKey "ArrowRight" s).current = (s.current + 1) % len s) ∧
      onKey "ArrowLeft" s = prev s ∧
      onKey "Escape" s = onClose s ∧
      (onKey "Escape" s).current = s.current ∧
      (onKey "Escape" s).closeCalls = s.closeCalls + 1 ∧
      (∀ key : String, key ≠ "Escape" → key ≠ "ArrowRight" → key ≠ "ArrowLeft" →
        onKey key s = s) := by
  have hr : onKey "ArrowRight" s = next s := by simp [onKey]
  refine ⟨hr, ?_, by simp [onKey], by simp [onKey], by simp [onKey, onClose],
    by simp [onKey, onClose], ?_⟩
  · intro h0 h1
    rw [hr, next_current, jsRem_eq_emod _ _ (by omega) (by omega)]
  · intro key h1 h2 h3
    simp [onKey, h1, h2, h3]

/-- Witness of C7 on two photos opened at index 1: `ArrowRight` wraps to 0,
and the key `a` changes nothing. -/
theorem keyboard_dispatch_witness :
    (onKey "ArrowRight" (openViewer [photoA, photoB] (some 1))).current = 0 ∧
      onKey "a" (openViewer [photoA, photoB] (some 1)) = openViewer [photoA, photoB] (some 1) :=
  ⟨((keyboard_dispatch (openViewer [photoA, photoB] (some 1))).2.1
      (by decide) (by decide)).trans (by decide),
    (keyboard_dispatch (openViewer [photoA, photoB] (some 1))).2.2.2.2.2.2 "a"
      (by decide) (by decide) (by decide)⟩

/-- C8, `retry()` from `Failed`: in a session whose load state is `Failed`
the Retry button is available, and its click puts the session in `Loading`
(`imgLoading` set, `imgError` cleared) with `current` and the photo list
unchanged; the timer the click starts changes nothing further. -/
theorem retry_from_failed (s : Session) (hf : loadState s = some LoadState.failed) :
    enabled Event.retry s = true ∧
      loadState (retry s) = some LoadState.loading ∧
      (retry s).imgLoading = true ∧
      (retry s).imgError = false ∧
      (retry s).current = s.current ∧
      (retry s).photos = s.photos ∧
      retryTimer (retry s) = retry s := by
  have herr : s.imgError = true := by
    unfold loadState at hf
    split at hf <;> simp_all
  refine ⟨herr, rfl, rfl, rfl, rfl, rfl, ?_⟩
  simp [retryTimer, setCurrent]

/-- Witness of C8: one photo, opened, its load failed, then Retry. -/
theorem retry_from_failed_witness :
    loadState (onImageResult Loader.imgElement 0 LoadResult.failure
        (openViewer [photoA] (some 0))) = some LoadState.failed ∧
      loadState (retry (onImageResult Loader.imgElement 0 LoadResult.failure
        (openViewer [photoA] (some 0)))) = some LoadState.loading ∧
      (retry (onImageResult Loader.imgElement 0 LoadResult.failure
        (openViewer [photoA] (some 0)))).current = 0 :=
  ⟨by decide,
    (retry_from_failed (onImageResult Loader.imgElement 0 LoadResult.failure
      (openViewer [photoA] (some 0))) (by decide)).2.1,
    by decide⟩

/-- C9 as stated fails on a list of length 1: one photo, opened and loaded;
the session is reachable and `Loaded`, and after `next()` or `previous()` it
is still `Loaded`, not `Loading`, because the index did not change. -/
theorem navigation_single_photo_stays_loaded :
    Reachable [photoA]
        (onImageResult Loader.imgElement 0 LoadResult.success (openViewer [photoA] (some 0))) ∧
      loadState (onImageResult Loader.imgElement 0 LoadResult.success
        (openViewer [photoA] (some 0))) = some LoadState.loaded ∧
      loadState (next (onImageResult Loader.imgElement 0 LoadResult.success
        (openViewer [photoA] (some 0)))) = some LoadState.loaded ∧
      loadState (prev (onImageResult Loader.imgElement 0 LoadResult.success
        (openViewer [photoA] (some 0)))) = some LoadState.loaded ∧
      loadState (next (onImageResult Loader.imgElement 0 LoadResult.success
        (openViewer [photoA] (some 0)))) ≠ some LoadState.loading :=
  ⟨⟨0, [Event.imageResult Loader.imgElement 0 LoadResult.success],
      by decide, by decide, by decide, rfl⟩,
    by decide, by decide, by decide, by decide⟩

/-- C9 amended: on a list of at least two photos and a valid index, in any
load state, `next()` and `previous()` change the index and leave the session
`Loading` with the load handlers attached for the new index; on a list of
exactly one photo both leave the session, and so its load state, unchanged. -/
theorem navigation_reenters_loading (s : Session)
    (h0 : 0 ≤ s.current) (h1 : s.current < len s) :
    (2 ≤ len s →
        (next s).current ≠ s.current ∧
        loadState (next s) = some LoadState.loading ∧
        (next s).attached = some (next s).current ∧
        (prev s).current ≠ s.current ∧
        loadState (prev s) = some LoadState.loading ∧
        (prev s).attached = some (prev s).current) ∧
      (len s = 1 → next s = s ∧ prev s = s) := by
  have hn := jsRem_succ _ _ h0 h1
  have hp := jsRem_pred _ _ h0 h1
  constructor
  · intro h2
    have hne : ¬ jsRem (s.current + 1) (len s) = s.current := by
      rw [hn]; split <;> omega
    have hpe : ¬ jsRem (s.current - 1 + len s) (len s) = s.current := by
      rw [hp]; split <;> omega
    have hnext : next s = loadEffect { s with current := jsRem (s.current + 1) (len s) } := by
      unfold next setCurrent
      rw [if_neg hne]
    have hprev : prev s =
        loadEffect { s with current := jsRem (s.current - 1 + len s) (len s) } := by
      unfold prev setCurrent
      rw [if_neg hpe]
    rw [hnext, hprev]
    exact ⟨hne, rfl, rfl, hpe, rfl, rfl⟩
  · intro h1len
    have hne : jsRem (s.current + 1) (len s) = s.current := by
      rw [hn]; split <;> omega
    have hpe : jsRem (s.current - 1 + len s) (len s) = s.current := by
      rw [hp]; split <;> omega
    constructor
    · unfold next setCurrent
      rw [if_pos hne]
    · unfold prev setCurrent
      rw [if_pos hpe]

/-- Witness of amended C9: two photos, the first one loaded; `next()` and
`previous()` both give `Loading`. -/
theorem navigation_reenters_loading_witness :
    loadState (onImageResult Loader.imgElement 0 LoadResult.success
        (openViewer [photoA, photoB] (some 0))) = some LoadState.loaded ∧
      loadState (next (onImageResult Loader.imgElement 0 LoadResult.success
        (openViewer [photoA, photoB] (some 0)))) = some LoadState.loading ∧
      loadState (prev (onImageResult Loader.imgElement 0 LoadResult.success
        (openViewer [photoA, photoB] (some 0)))) = some LoadState.loading :=
  ⟨by decide,
    ((navigation_reenters_loading (onImageResult Loader.imgElement 0 LoadResult.success
      (openViewer [photoA, photoB] (some 0))) (by decide) (by decide)).1 (by decide)).2.1,
    ((navigation_reenters_loading (onImageResult Loader.imgElement 0 LoadResult.success
      (openViewer [photoA, photoB] (some 0))) (by decide) (by decide)).1
        (by decide)).2.2.2.2.1⟩

/-- C10 as stated fails in the `Failed` state: one photo, opened, the `<img>`
element reports a failure; the session is reachable and `Failed`, the effect
`Image` still has its handlers for the current index 0, and its success leaves
the session `Failed`, not `Loaded`. -/
theorem success_in_failed_stays_failed :
    Reachable [photoA]
        (onImageResult Loader.imgElement 0 LoadResult.failure (openViewer [photoA] (some 0))) ∧
      (onImageResult Loader.imgElement 0 LoadResult.failure
        (openViewer [photoA] (some 0))).current = 0 ∧
      delivered Loader.effectImage 0 (onImageResult Loader.imgElement 0 LoadResult.failure
        (openViewer [photoA] (some 0))) = true ∧
      loadState (onImageResult Loader.effectImage 0 LoadResult.success
        (onImageResult Loader.imgElement 0 LoadResult.failure
          (openViewer [photoA] (some 0)))) = some LoadState.failed ∧
      loadState (onImageResult Loader.effectImage 0 LoadResult.success
        (onImageResult Loader.imgElement 0 LoadResult.failure
          (openViewer [photoA] (some 0)))) ≠ some LoadState.loaded :=
  ⟨⟨0, [Event.imageResult Loader.imgElement 0 LoadResult.failure],
      by decide, by decide, by decide, rfl⟩,
    by decide, by decide, by decide, by decide⟩

/-- C10 amended: a load result delivered for the index equal to `current`
makes the load state `Failed` when it is a failure, in every session state,
and `Loaded` when it is a success and the session is not `Failed` (`imgError`
clear, that is `Loading` or `Loaded`). -/
theorem current_result_sets_loadState (s : Session) (via : Loader)
    (hd : delivered via s.current s = true) :
    loadState (onImageResult via s.current LoadResult.failure s) = some LoadState.failed ∧
      (s.imgError = false →
        loadState (onImageResult via s.current LoadResult.success s) = some LoadState.loaded) := by
  unfold onImageResult
  rw [if_pos hd, if_pos hd]
  constructor
  · rfl
  · intro he
    simp [fire, loadState, he]

/-- Witness of amended C10: one photo just opened (`Loading`); a failure of
the current photo gives `Failed`, a success gives `Loaded`. -/
theorem current_result_sets_loadState_witness :
    loadState (onImageResult Loader.effectImage 0 LoadResult.failure
        (openViewer [photoA] (some 0))) = some LoadState.failed ∧
      loadState (onImageResult Loader.effectImage 0 LoadResult.success
        (openViewer [photoA] (some 0))) = some LoadState.loaded :=
  ⟨(current_result_sets_loadState (openViewer [photoA] (some 0)) Loader.effectImage
      (by decide)).1,
    (current_result_sets_loadState (openViewer [photoA] (some 0)) Loader.effectImage
      (by decide)).2 (by decide)⟩

/-! ## Invariants of the reachable sessions -/

theorem step_preserves (P : Session → Prop)
    (hset : ∀ (f : Int → Int) (s : Session), P s → P (setCurrent f s))
    (hclose : ∀ s : Session, P s → P (onClose s))
    (hstart : ∀ (x : ℚ) (s : Session), P s → P (handleTouchStart x s))
    (hend : ∀ (x : ℚ) (s : Session), P s → P { s with touchEndX := x })
    (hretry : ∀ s : Session, P s → P (retry s))
    (hfire : ∀ (r : LoadResult) (s : Session), P s → P (fire r s))
    (e : Event) (s : Session) (hs : P s) : P (step e s) := by
  have hnext : ∀ t : Session, P t → P (next t) := fun t ht => hset _ t ht
  have hprev : ∀ t : Session, P t → P (prev t) := fun t ht => hset _ t ht
  cases e with
  | next => exact hnext s hs
  | previous => exact hprev s hs
  | key k =>
    show P (onKey k s)
    unfold onKey
    have h1 : P (if k = "Escape" then onClose s else s) := by
      split
      · exact hclose s hs
      · exact hs
    have h2 : P (if k = "ArrowRight" then next (if k = "Escape" then onClose s else s)
        else (if k = "Escape" then onClose s else s)) := by
      split
      · exact hnext _ h1
      · exact h1
    show P (if k = "ArrowLeft" then prev _ else _)
    split
    · exact hprev _ h2
    · exact h2
  | touchStart x => exact hstart x s hs
  | touchEnd x =>
    show P (handleSwipe { s with touchEndX := x })
    unfold handleSwipe
    simp only
    split
    · split
      · exact hnext _ (hend x s hs)
      · exact hprev _ (hend x s hs)
    · exact hend x s hs
  | retry => exact hretry s hs
  | retryTimer => exact hset (fun c => c) s hs
  | imageResult via forIndex r =>
    show P (onImageResult via forIndex r s)
    unfold onImageResult
    split
    · exact hfire r s hs
    · exact hs

theorem run_preserves (P : Session → Prop)
    (hstep : ∀ (e : Event) (s : Session), P s → P (step e s))
    (es : List Event) (s : Session) (hs : P s) : P (run es s) := by
  induction es generalizing s with
  | nil => exact hs
  | cons e es ih =>
    show P (run es (if enabled e s then step e s else s))
    apply ih
    split
    · exact hstep e s hs
    · exact hs

theorem preloadsCurrent_step (e : Event) (s : Session) (hs : PreloadsCurrent s) :
    PreloadsCurrent (step e s) := by
  refine step_preserves PreloadsCurrent ?_ ?_ ?_ ?_ ?_ ?_ e s hs
  · intro f t ht
    unfold setCurrent
    split
    · exact ht
    · rfl
  · intro t ht; exact ht
  · intro x t ht; exact ht
  · intro x t ht; exact ht
  · intro t ht; exact ht
  · intro r t ht
    cases r <;> exact ht

theorem preloadsCurrent_of_reachable (photos : List Photo) (s : Session)
    (h : Reachable photos s) : PreloadsCurrent s := by
  obtain ⟨startIndex, es, _, _, _, rfl⟩ := h
  exact run_preserves PreloadsCurrent preloadsCurrent_step es _ rfl

theorem flagsExclusive_step (e : Event) (s : Session) (hs : FlagsExclusive s) :
    FlagsExclusive (step e s) := by
  refine step_preserves FlagsExclusive ?_ ?_ ?_ ?_ ?_ ?_ e s hs
  · intro f t ht
    unfold setCurrent
    split
    · exact ht
    · intro h; exact Bool.noConfusion h.2
  · intro t ht; exact ht
  · intro x t ht; exact ht
  · intro x t ht; exact ht
  · intro t _ h; exact Bool.noConfusion h.2
  · intro r t ht
    cases r <;> intro h <;> exact Bool.noConfusion h.1

theorem flagsExclusive_of_reachable (photos : List Photo) (s : Session)
    (h : Reachable photos s) : FlagsExclusive s := by
  obtain ⟨startIndex, es, _, _, _, rfl⟩ := h
  exact run_preserves FlagsExclusive flagsExclusive_step es _
    (fun h => Bool.noConfusion h.2)

/-- C11, neighbour preload: in every session reachable from `open` on a
non-empty list the preloads of the latest index change are exactly the photos
at `(c + 1) mod len` and `(c - 1 + len) mod len` for the current index `c`,
both valid indices; every change of the index to a valid `c` schedules exactly
those two; the two neighbour images carry no handler, so their success or
failure changes neither `loadState` nor `current` (nor anything else). -/
theorem neighbour_preload (photos : List Photo) (s : Session)
    (hreach : Reachable photos s) :
    s.preloads = [(s.current + 1) % len s, (s.current - 1 + len s) % len s] ∧
      (∀ i ∈ s.preloads, 0 ≤ i ∧ i < len s) ∧
      (∀ f : Int → Int, f s.current ≠ s.current → 0 ≤ f s.current → f s.current < len s →
        (setCurrent f s).preloads =
          [(f s.current + 1) % len s, (f s.current - 1 + len s) % len s]) ∧
      (neighbourImages s).map ImageObject.index = s.preloads ∧
      (∀ o ∈ neighbourImages s, ∀ r : LoadResult,
        imageEvent o r s = s ∧
          loadState (imageEvent o r s) = loadState s ∧
          (imageEvent o r s).current = s.current) := by
  have hv := valid_of_reachable photos s hreach
  have hp : s.preloads = [jsRem (s.current + 1) (len s), jsRem (s.current - 1 + len s) (len s)] :=
    preloadsCurrent_of_reachable photos s hreach
  have h0 := hv.nonneg
  have h1 := hv.lt
  have hs := jsRem_succ _ _ h0 h1
  have hd := jsRem_pred _ _ h0 h1
  refine ⟨?_, ?_, ?_, ?_, ?_⟩
  · rw [hp, jsRem_eq_emod _ _ (by omega) (by omega), jsRem_eq_emod _ _ (by omega) (by omega)]
  · intro i hi
    rw [hp] at hi
    simp only [List.mem_cons, List.mem_singleton, List.not_mem_nil, or_false] at hi
    rcases hi with hi | hi
    · rw [hi, hs]; split <;> omega
    · rw [hi, hd]; split <;> omega
  · intro f hne hf0 hf1
    unfold setCurrent
    rw [if_neg hne]
    show [jsRem (f s.current + 1) (len s), jsRem (f s.current - 1 + len s) (len s)] = _
    rw [jsRem_eq_emod _ _ (by omega) (by omega), jsRem_eq_emod _ _ (by omega) (by omega)]
  · simp [neighbourImages, Function.comp_def]
  · intro o ho r
    have hno : o.hasHandlers = false := by
      unfold neighbourImages at ho
      obtain ⟨i, _, rfl⟩ := List.mem_map.mp ho
      rfl
    have he : imageEvent o r s = s := by
      unfold imageEvent
      simp [hno]
    rw [he]
    exact ⟨rfl, rfl, rfl⟩

/-- Witness of C11: three photos opened at 0, then `next()`: the index is 1,
the preloads are the photos 2 and 0, and a failure of the first neighbour
image leaves the session `Loading` at index 1. -/
theorem neighbour_preload_witness :
    (next (openViewer [photoA, photoB, photoC] (some 0))).current = 1 ∧
      (next (openViewer [photoA, photoB, photoC] (some 0))).preloads = [2, 0] ∧
      loadState (imageEvent { index := 2, hasHandlers := false } LoadResult.failure
        (next (openViewer [photoA, photoB, photoC] (some 0)))) = some LoadState.loading :=
  ⟨by decide,
    (neighbour_preload [photoA, photoB, photoC]
      (next (openViewer [photoA, photoB, photoC] (some 0)))
      ⟨0, [Event.next], by decide, by decide, by decide, rfl⟩).1.trans (by decide),
    ((neighbour_preload [photoA, photoB, photoC]
      (next (openViewer [photoA, photoB, photoC] (some 0)))
      ⟨0, [Event.next], by decide, by decide, by decide, rfl⟩).2.2.2.2
        { index := 2, hasHandlers := false } (by decide) LoadResult.failure).2.1.trans
      (by decide)⟩

/-- C12, the load flags form a three-state enum: in every session reachable
from `open` by `next`, `previous`, keys, swipes, retry and image load or error
events, `imgLoading` and `imgError` are not both set, so the pair is exactly
one of `Loading` (true, false), `Loaded` (false, false), `Failed`
(false, true). -/
theorem load_flags_well_formed (photos : List Photo) (s : Session)
    (hreach : Reachable photos s) :
    ¬ (s.imgLoading = true ∧ s.imgError = true) ∧
      ((s.imgLoading = true ∧ s.imgError = false ∧ loadState s = some LoadState.loading) ∨
        (s.imgLoading = false ∧ s.imgError = false ∧ loadState s = some LoadState.loaded) ∨
        (s.imgLoading = false ∧ s.imgError = true ∧ loadState s = some LoadState.failed)) := by
  have hx : ¬ (s.imgLoading = true ∧ s.imgError = true) :=
    flagsExclusive_of_reachable photos s hreach
  refine ⟨hx, ?_⟩
  unfold loadState
  cases hl : s.imgLoading <;> cases he : s.imgError
  · exact Or.inr (Or.inl ⟨rfl, rfl, rfl⟩)
  · exact Or.inr (Or.inr ⟨rfl, rfl, rfl⟩)
  · exact Or.inl ⟨rfl, rfl, rfl⟩
  · exact absurd ⟨hl, he⟩ hx

/-- Witness of C12: one photo, opened, failed, retried, failed again: the
session is `Failed` with `imgLoading` clear. -/
theorem load_flags_well_formed_witness :
    ¬ ((run [Event.imageResult Loader.imgElement 0 LoadResult.failure, Event.retry,
          Event.imageResult Loader.effectImage 0 LoadResult.failure]
          (openViewer [photoA] (some 0))).imgLoading = true ∧
        (run [Event.imageResult Loader.imgElement 0 LoadResult.failure, Event.retry,
          Event.imageResult Loader.effectImage 0 LoadResult.failure]
          (openViewer [photoA] (some 0))).imgError = true) :=
  (load_flags_well_formed [photoA]
    (run [Event.imageResult Loader.imgElement 0 LoadResult.failure, Event.retry,
      Event.imageResult Loader.effectImage 0 LoadResult.failure]
      (openViewer [photoA] (some 0)))
    ⟨0, [Event.imageResult Loader.imgElement 0 LoadResult.failure, Event.retry,
      Event.imageResult Loader.effectImage 0 LoadResult.failure],
      by decide, by decide, by decide, rfl⟩).1

end ModalSlider

namespace Gallery

/-! ## The grid and the viewer it opens -/

theorem displayedPhotos_length (g : State) :
    (displayedPhotos g).length = min g.displayCount g.photos.length :=
  List.length_take _ _

theorem rendersGrid_iff (g : State) :
    rendersGrid g = true ↔ g.loading = false ∧ g.error = none := by
  unfold rendersGrid
  cases g.loading <;> cases g.error <;> simp

theorem thumbnails_length_lt (g : State) (j : Nat) (h : j < (thumbnails g).length) :
    rendersGrid g = true ∧ j < (displayedPhotos g).length := by
  unfold thumbnails at h
  split at h
  · next hr =>
    rw [List.enum_length] at h
    exact ⟨hr, h⟩
  · simp at h

theorem displayedPhotos_getElem? (g : State) (i : Nat) (h : i < (displayedPhotos g).length) :
    (displayedPhotos g)[i]? = g.photos[i]? := by
  rw [displayedPhotos_length] at h
  exact List.getElem?_take_of_lt (by omega)

theorem selectionShown_step (e : Event) (g : State) (he : enabled e g = true)
    (hs : SelectionShown g) : SelectionShown (step e g) := by
  cases e with
  | fetchResolved data =>
    intro i hi
    have hl := (hs i hi).2.1
    have he2 : g.loading = true := he
    rw [hl] at he2
    exact Bool.noConfusion he2
  | fetchRejected =>
    intro i hi
    have hl := (hs i hi).2.1
    have he2 : g.loading = true := he
    rw [hl] at he2
    exact Bool.noConfusion he2
  | retryFetch =>
    intro i hi
    have hn := (hs i hi).2.2
    have he2 : (!g.loading && g.error.isSome) = true := he
    rw [hn] at he2
    simp at he2
  | loadMore =>
    intro i hi
    obtain ⟨h1, h2, h3⟩ := hs i hi
    refine ⟨?_, h2, h3⟩
    rw [displayedPhotos_length] at h1
    show i < (displayedPhotos (loadMore g)).length
    rw [displayedPhotos_length]
    show i < min (min (g.displayCount + 10) g.photos.length) g.photos.length
    omega
  | selectThumbnail index =>
    intro i hi
    have he2 : decide (index < (thumbnails g).length) = true := he
    obtain ⟨hr, hlt⟩ := thumbnails_length_lt g index (of_decide_eq_true he2)
    have hii : index = i := Option.some.inj hi
    subst hii
    exact ⟨hlt, ((rendersGrid_iff g).mp hr).1, ((rendersGrid_iff g).mp hr).2⟩
  | closeModal =>
    intro i hi
    exact Option.noConfusion hi

theorem selectionShown_of_reachable (g : State) (h : Reachable g) : SelectionShown g := by
  obtain ⟨es, rfl⟩ := h
  have key : ∀ (es : List Event) (g : State), SelectionShown g → SelectionShown (run es g) := by
    intro es
    induction es with
    | nil => intro g hg; exact hg
    | cons e es ih =>
      intro g hg
      show SelectionShown (run es (if enabled e g then step e g else g))
      apply ih
      split
      · next he => exact selectionShown_step e g he hg
      · exact hg
  exact key es mount (fun i hi => Option.noConfusion hi)

/-- C13, the grid opens the viewer with a valid index only.  Selecting a
rendered thumbnail `j` makes the page pass `photos` and `j` to the viewer, and
`j` indexes `displayedPhotos = photos.slice(0, displayCount)`, whose entry `j`
is `photos[j]`.  In every reachable page state the props given to
`ModalSlider` are the fetched list, non-empty, and an index `i` with
`0 ≤ i < len(photos)` that indexes `displayedPhotos` with the same photo, so
the preconditions of `open` hold and the opened session is valid. -/
theorem grid_opens_valid_index (g : State) :
    (∀ j : Nat, enabled (Event.selectThumbnail j) g = true →
        modalProps (selectThumbnail j g) = some (g.photos, (j : Int)) ∧
          j < (displayedPhotos g).length ∧ j < g.photos.length ∧
          (displayedPhotos g)[j]? = g.photos[j]?) ∧
      (Reachable g → ∀ (ps : List ModalSlider.Photo) (idx : Int),
        modalProps g = some (ps, idx) →
          ps = g.photos ∧ ps ≠ [] ∧ 0 ≤ idx ∧ idx < ps.length ∧
          (∃ i : Nat, idx = (i : Int) ∧ i < (displayedPhotos g).length ∧
            (displayedPhotos g)[i]? = ps[i]?) ∧
          ModalSlider.Valid ps (ModalSlider.openViewer ps (some idx))) := by
  constructor
  · intro j he
    have he2 : decide (j < (thumbnails g).length) = true := he
    obtain ⟨hr, hlt⟩ := thumbnails_length_lt g j (of_decide_eq_true he2)
    have hlen := displayedPhotos_length g
    have hr2 : rendersGrid (selectThumbnail j g) = true := hr
    refine ⟨?_, hlt, by omega, displayedPhotos_getElem? g j hlt⟩
    unfold modalProps
    rw [if_pos hr2]
    rfl
  · intro hreach ps idx hp
    have hs := selectionShown_of_reachable g hreach
    unfold modalProps at hp
    split at hp
    · cases hsel : g.selectedIndex with
      | none => rw [hsel] at hp; exact Option.noConfusion hp
      | some i =>
        rw [hsel] at hp
        have hpair : (g.photos, (i : Int)) = (ps, idx) := Option.some.inj hp
        have hps : g.photos = ps := congrArg Prod.fst hpair
        have hidx : (i : Int) = idx := congrArg Prod.snd hpair
        subst hps
        subst hidx
        have hi := (hs i hsel).1
        have hlen := displayedPhotos_length g
        have hlt : i < g.photos.length := by omega
        have hne : g.photos ≠ [] := by
          intro hnil
          rw [hnil] at hlt
          exact Nat.not_lt_zero _ hlt
        have h0 : (0 : Int) ≤ (i : Int) := Int.ofNat_nonneg i
        have h1 : (i : Int) < (g.photos.length : Int) := Int.ofNat_lt.mpr hlt
        exact ⟨rfl, hne, h0, h1, ⟨i, rfl, hi, displayedPhotos_getElem? g i hi⟩,
          ModalSlider.valid_openViewer g.photos i h0 h1⟩
    · exact Option.noConfusion hp

/-- Witness of C13: three photos fetched, the third thumbnail selected; the
viewer gets the list and index 2, and the opened session is valid. -/
theorem grid_opens_valid_index_witness :
    modalProps (run [Event.fetchResolved [ModalSlider.photoA, ModalSlider.photoB,
        ModalSlider.photoC], Event.selectThumbnail 2] mount) =
        some ([ModalSlider.photoA, ModalSlider.photoB, ModalSlider.photoC], 2) ∧
      ModalSlider.Valid [ModalSlider.photoA, ModalSlider.photoB, ModalSlider.photoC]
        (ModalSlider.openViewer [ModalSlider.photoA, ModalSlider.photoB, ModalSlider.photoC]
          (some 2)) :=
  ⟨by decide,
    ((grid_opens_valid_index (run [Event.fetchResolved [ModalSlider.photoA, ModalSlider.photoB,
        ModalSlider.photoC], Event.selectThumbnail 2] mount)).2
      ⟨[Event.fetchResolved [ModalSlider.photoA, ModalSlider.photoB, ModalSlider.photoC],
        Event.selectThumbnail 2], rfl⟩
      [ModalSlider.photoA, ModalSlider.photoB, ModalSlider.photoC] 2 (by decide)).2.2.2.2.2⟩

/-! ## Load-more pagination -/

theorem loadMore_exhausts (m : Nat) :
    ∀ g : State, g.photos.length - g.displayCount ≤ m → rendersGrid g = true →
      ∃ n : Nat, (∀ k : Nat, k < n → loadMoreAvailable (loadMore^[k] g) = true) ∧
        loadMoreAvailable (loadMore^[n] g) = false ∧
        displayedPhotos (loadMore^[n] g) = g.photos := by
  have hdone : ∀ g : State, g.photos.length ≤ g.displayCount →
      ∃ n : Nat, (∀ k : Nat, k < n → loadMoreAvailable (loadMore^[k] g) = true) ∧
        loadMoreAvailable (loadMore^[n] g) = false ∧
        displayedPhotos (loadMore^[n] g) = g.photos := by
    intro g hle
    refine ⟨0, fun k hk => absurd hk (Nat.not_lt_zero k), ?_, ?_⟩
    · show (rendersGrid g && decide (g.displayCount < g.photos.length)) = false
      have hnot : ¬ g.displayCount < g.photos.length := by omega
      simp [hnot]
    · exact List.take_of_length_le hle
  induction m with
  | zero =>
    intro g hm _
    exact hdone g (by omega)
  | succ m ih =>
    intro g hm hr
    by_cases hlt : g.displayCount < g.photos.length
    · have hm2 : (loadMore g).photos.length - (loadMore g).displayCount ≤ m := by
        show g.photos.length - min (g.displayCount + 10) g.photos.length ≤ m
        omega
      obtain ⟨n, h1, h2, h3⟩ := ih (loadMore g) hm2 hr
      refine ⟨n + 1, ?_, ?_, ?_⟩
      · intro k hk
        cases k with
        | zero =>
          show (rendersGrid g && decide (g.displayCount < g.photos.length)) = true
          simp [hr, hlt]
        | succ j =>
          rw [Function.iterate_succ_apply]
          exact h1 j (by omega)
      · rw [Function.iterate_succ_apply]
        exact h2
      · rw [Function.iterate_succ_apply]
        exact h3
    · exact hdone g (by omega)

/-- C14, load-more pagination: the number of displayed photos is
`min(displayCount, len(photos))`; when `displayCount < len(photos)`,
`loadMore` sets `displayCount` to `min(displayCount + 10, len(photos))`,
strictly more than before and at most `len(photos)`, and keeps the list; and
while the grid is rendered, after finitely many `loadMore` actions, each taken
with the control available, every photo is displayed and the control is no
longer available. -/
theorem load_more_pagination (g : State) :
    (displayedPhotos g).length = min g.displayCount g.photos.length ∧
      (g.displayCount < g.photos.length →
        (loadMore g).displayCount = min (g.displayCount + 10) g.photos.length ∧
          g.displayCount < (loadMore g).displayCount ∧
          (loadMore g).displayCount ≤ g.photos.length ∧
          (loadMore g).photos = g.photos) ∧
      (rendersGrid g = true →
        ∃ n : Nat, (∀ k : Nat, k < n → loadMoreAvailable (loadMore^[k] g) = true) ∧
          loadMoreAvailable (loadMore^[n] g) = false ∧
          displayedPhotos (loadMore^[n] g) = g.photos) := by
  refine ⟨displayedPhotos_length g, ?_, ?_⟩
  · intro hlt
    have hd : (loadMore g).displayCount = min (g.displayCount + 10) g.photos.length := rfl
    refine ⟨hd, ?_, ?_, rfl⟩
    · rw [hd]; omega
    · rw [hd]; omega
  · intro hr
    exact loadMore_exhausts (g.photos.length - g.displayCount) g (Nat.le_refl _) hr

/-- Witness of C14: thirty photos fetched; 15 are displayed, one `loadMore`
gives 25, a second one 30, and then the control is gone. -/
theorem load_more_pagination_witness :
    (displayedPhotos (fetchResolved (List.replicate 30 ModalSlider.photoA) mount)).length = 15 ∧
      (loadMore (fetchResolved (List.replicate 30 ModalSlider.photoA) mount)).displayCount
        = 25 ∧
      (loadMore (loadMore
        (fetchResolved (List.replicate 30 ModalSlider.photoA) mount))).displayCount = 30 ∧
      loadMoreAvailable (loadMore (loadMore
        (fetchResolved (List.replicate 30 ModalSlider.photoA) mount))) = false :=
  ⟨(load_more_pagination (fetchResolved (List.replicate 30 ModalSlider.photoA) mount)).1.trans
      (by decide),
    ((load_more_pagination (fetchResolved (List.replicate 30 ModalSlider.photoA) mount)).2.1
      (by decide)).1.trans (by decide),
    ((load_more_pagination
      (loadMore (fetchResolved (List.replicate 30 ModalSlider.photoA) mount))).2.1
      (by decide)).1.trans (by decide),
    by decide⟩

end Gallery
